import Mathlib

/-!
Verification of the yara-x rule-condition compiler fragment.

This file gives a shallow embedding of the two source files of the
repository:

* `src/src/compiler/mod.rs` — the `Compiler` driver (`add_source`,
  `build`, `process_imports`), the `Context` helper
  `get_pattern_from_current_rule`, and the per-rule WebAssembly
  emission in the entry function.
* `src/yara-x/src/modules/string.rs` — the `string` module functions
  `to_int`, `to_int` with a base argument, and `length`.

Parts of the repository that those files call but that are not present
under `src/` (the parser, the semantic checker, the wasm instruction
emitter `try_except` / `emit_bool_expr`, and the scanner) are modelled
from the specification; each such definition carries a doc comment
starting with `Modelled from the spec:`.
-/

/-! ## Rust primitives -/

/-- Outcome of a Rust computation that may panic (for example through
`unwrap`).  `ok` is a normal return, `crash` is a panic. -/
inductive RResult (α : Type) where
  | ok (a : α)
  | crash
  deriving DecidableEq, Repr

/-- Rust `usize as i32` / `len() as i32` cast: truncate to the low
32 bits and reinterpret as a signed two-complement value. -/
def i32ofNat (n : Nat) : Int :=
  let m := n % 4294967296
  if m < 2147483648 then (m : Int) else (m : Int) - 4294967296

/-- Rust `u32::try_from` on an `i64` value: succeeds exactly on
values in `[0, 2^32 - 1]`. -/
def u32TryFrom (n : Int) : Option Nat :=
  if 0 ≤ n ∧ n ≤ 4294967295 then some n.toNat else none

/-! ## UTF-8 validity (model of `str::from_utf8` / `to_str`) -/

/-- A UTF-8 continuation byte: `0x80 ..= 0xBF`. -/
def utf8Cont (b : Nat) : Bool := 128 ≤ b && b ≤ 191

/-- Validity of a byte sequence as UTF-8, following the table used by
`core::str::from_utf8` (rejecting overlong encodings, surrogates and
code points above `U+10FFFF`). -/
def utf8Valid : List Nat → Bool
  | [] => true
  | b :: rest =>
    if b ≤ 127 then utf8Valid rest
    else if b < 194 then false
    else if b ≤ 223 then
      match rest with
      | c :: r => utf8Cont c && utf8Valid r
      | [] => false
    else if b = 224 then
      match rest with
      | c1 :: c2 :: r => (160 ≤ c1 && c1 ≤ 191) && utf8Cont c2 && utf8Valid r
      | _ => false
    else if b = 237 then
      match rest with
      | c1 :: c2 :: r => (128 ≤ c1 && c1 ≤ 159) && utf8Cont c2 && utf8Valid r
      | _ => false
    else if b ≤ 239 then
      match rest with
      | c1 :: c2 :: r => utf8Cont c1 && utf8Cont c2 && utf8Valid r
      | _ => false
    else if b = 240 then
      match rest with
      | c1 :: c2 :: c3 :: r =>
          (144 ≤ c1 && c1 ≤ 191) && utf8Cont c2 && utf8Cont c3 && utf8Valid r
      | _ => false
    else if b ≤ 243 then
      match rest with
      | c1 :: c2 :: c3 :: r =>
          utf8Cont c1 && utf8Cont c2 && utf8Cont c3 && utf8Valid r
      | _ => false
    else if b = 244 then
      match rest with
      | c1 :: c2 :: c3 :: r =>
          (128 ≤ c1 && c1 ≤ 143) && utf8Cont c2 && utf8Cont c3 && utf8Valid r
      | _ => false
    else false

/-! ## Radix integer parsing (model of `i64::from_str_radix` and
`str::parse::<i64>`) -/

/-- Value of an ASCII digit character, as in `char::to_digit`:
`0-9`, `a-z`, `A-Z`. -/
def digitVal (b : Nat) : Option Nat :=
  if 48 ≤ b ∧ b ≤ 57 then some (b - 48)
  else if 97 ≤ b ∧ b ≤ 122 then some (b - 87)
  else if 65 ≤ b ∧ b ≤ 90 then some (b - 55)
  else none

/-- Accumulate the magnitude of a digit string in the given radix;
`none` when a byte is not a digit of that radix. -/
def digitsVal (radix : Nat) : List Nat → Nat → Option Nat
  | [], acc => some acc
  | b :: r, acc =>
    match digitVal b with
    | some d => if d < radix then digitsVal radix r (acc * radix + d) else none
    | none => none

/-- Model of `i64::from_str_radix(s, radix)` on the UTF-8 bytes of `s`
(`2 ≤ radix ≤ 36` assumed by the Rust function): an optional `+`/`-`
sign, then a nonempty digit string of the radix, with the result
required to fit in a signed 64-bit integer.  `str::parse::<i64>` is
this function with radix 10. -/
def fromStrRadix (bytes : List Nat) (radix : Nat) : Option Int :=
  let signDigits : Bool × List Nat :=
    match bytes with
    | 43 :: r => (false, r)
    | 45 :: r => (true, r)
    | _ => (false, bytes)
  let neg := signDigits.1
  let digits := signDigits.2
  if digits.isEmpty then none
  else
    match digitsVal radix digits 0 with
    | none => none
    | some mag =>
      if neg then
        if mag ≤ 9223372036854775808 then some (-(mag : Int)) else none
      else
        if mag ≤ 9223372036854775807 then some (mag : Int) else none

/-! ## The `string` module (src/yara-x/src/modules/string.rs)

A `RuntimeString` argument is represented by the byte sequence that
`as_bstr` yields.  A returned `Option<i64>` of `None` is the
"undefined" signal of the module protocol. -/

/-- Model of the one-argument `string.to_int` export (lines 11-19):
`to_str()` then `parse::<i64>().unwrap()` on success of `to_str`;
`None` when the bytes are not valid UTF-8.  The `unwrap` panics when
the text is valid UTF-8 but does not parse as an integer. -/
def to_int (bytes : List Nat) : RResult (Option Int) :=
  if utf8Valid bytes then
    match fromStrRadix bytes 10 with
    | some n => RResult.ok (some n)
    | none => RResult.crash
  else RResult.ok none

/-- Model of the two-argument `string.to_int` export `to_int_base`
(lines 21-42): bases outside `[2, 36]` give `None`; invalid UTF-8
gives `None`; otherwise `i64::from_str_radix` with
`base.try_into().unwrap()` (the `try_into` is the `u32` conversion). -/
def to_int_base (bytes : List Nat) (base : Int) : RResult (Option Int) :=
  if base < 2 ∨ 36 < base then RResult.ok none
  else if utf8Valid bytes = false then RResult.ok none
  else
    match u32TryFrom base with
    | some r => RResult.ok (fromStrRadix bytes r)
    | none => RResult.crash

/-- Model of the `string.length` export (lines 44-47):
`len().try_into().unwrap()`, a `usize` to `i64` conversion that
panics only above `2^63 - 1`. -/
def length (bytes : List Nat) : RResult (Option Int) :=
  if bytes.length ≤ 9223372036854775807 then
    RResult.ok (some (bytes.length : Int))
  else RResult.crash

/-! ## Identifier pool (model of `StringInterner`, field `ident_pool`)

An `IdentId` (`SymbolU32` in the source) is the index of the string in
the pool. -/

/-- Handle of an interned identifier. -/
abbrev IdentId := Nat

/-- The identifier pool: interned strings in insertion order. -/
structure IdentPool where
  strings : List String
  deriving DecidableEq, Repr

/-- Model of `StringInterner::get_or_intern`: return the existing
handle when the text was seen before, otherwise append it. -/
def IdentPool.getOrIntern (p : IdentPool) (s : String) : IdentId × IdentPool :=
  match p.strings.findIdx? (fun t => t = s) with
  | some i => (i, p)
  | none => (p.strings.length, ⟨p.strings ++ [s]⟩)

/-- Model of `StringInterner::resolve`: the text of a handle, `none`
for a handle the pool never returned. -/
def IdentPool.resolve (p : IdentPool) (i : IdentId) : Option String :=
  p.strings.get? i

/-! ## Types and the symbol table

`TypeValue` of the source distinguishes scalar types and `Struct`
values (imported modules).  For the claims only the type tag matters,
so a symbol table entry carries a `Ty`. -/

/-- Type tags: the four scalar types of `Type` plus the struct tag of
`TypeValue::Struct`. -/
inductive Ty where
  | bool
  | integer
  | float
  | str
  | structT
  deriving DecidableEq, Repr

/-- The root symbol table: top-level bindings, newest first.
Modelled from the spec: `insert(name, value)` adds a top-level
binding and `lookup` resolves a name to its typed value. -/
abbrev SymTbl := List (String × Ty)

/-- Lookup of a name in the symbol table (first binding wins). -/
def symLookup (sym : SymTbl) (name : String) : Option Ty :=
  match sym with
  | [] => none
  | (n, t) :: rest => if n = name then some t else symLookup rest name

/-! ## The rule AST (interface consumed from the parser)

The textual parser is not part of `src/`; the AST below is the shape
`add_source` consumes: namespaces holding imports and rules, each rule
carrying an identifier, an optional ordered pattern list, and one
condition expression. -/

/-- A pattern declaration inside a rule, carrying its identifier
(for example `$a`). -/
structure PatternDecl where
  identifier : String
  deriving DecidableEq, Repr

/-- Condition expressions.  Literals of each scalar type, an
identifier reference, comparisons, and the three calls exported by the
`string` module.  Modelled from the spec: the full expression grammar
is outside `src/`; these constructors cover what the claims use. -/
inductive Expr where
  | boolLit (b : Bool)
  | intLit (n : Int)
  | floatLit
  | strLit (bytes : List Nat)
  | identE (name : String)
  | eqE (a b : Expr)
  | gtE (a b : Expr)
  | ltE (a b : Expr)
  | callLength (a : Expr)
  | callToInt (a : Expr)
  | callToIntBase (a b : Expr)
  deriving DecidableEq, Repr

/-- A rule of the AST: identifier, optional pattern declarations,
condition. -/
structure Rule where
  identifier : String
  patterns : Option (List PatternDecl)
  condition : Expr
  deriving DecidableEq, Repr

/-- An `import "X"` statement with its source span. -/
structure Import where
  module_name : String
  span : Nat × Nat
  deriving DecidableEq, Repr

/-- One namespace of the AST: its imports followed by its rules. -/
structure Namespace where
  imports : List Import
  rules : List Rule
  deriving DecidableEq, Repr

/-- Warnings (`crate::warnings::Warning`). -/
inductive Warning where
  | nonBooleanAsBoolean
  | duplicateImport (moduleName : String)
  | parserWarning (msg : String)
  deriving DecidableEq, Repr

/-- The parsed AST handed to `add_source`: namespaces plus the
warnings produced by the parser. -/
structure Ast where
  namespaces : List Namespace
  warnings : List Warning
  deriving DecidableEq, Repr

/-- Errors of the parser (`crate::parser::Error`), kept abstract as a
message. -/
abbrev ParserError := String

/-- Compile errors (`crate::compiler::errors::CompileError`). -/
inductive CompileErr where
  | unknownModule (name : String) (span : Nat × Nat)
  | unresolvedIdent (name : String)
  | wrongType (t : Ty)
  deriving DecidableEq, Repr

/-- `crate::compiler::Error`: a parser error or a compile error. -/
inductive Error where
  | parseError (e : ParserError)
  | compileError (e : CompileErr)
  deriving DecidableEq, Repr

/-- Modelled from the spec: a source text is represented by its parse
outcome, since the textual parser is specified only at its interface
boundary (a rule AST per namespace, or a syntax error). -/
inductive SourceCode where
  | parsed (ast : Ast)
  | parseFailed (e : ParserError)
  deriving DecidableEq, Repr

/-! ## WebAssembly instructions emitted into the entry function -/

/-- The instructions `add_source` emits into the main function.
`condEval e` stands for the sequence emitted by `emit_bool_expr` for
the condition `e` (modelled from the spec: `emit_bool_expr` lives in
the emit module, outside `src/`); `tryExcept` is the structured
handler block of `try_except`, modelled from the spec: one block with
a try branch and an except branch; `brIfSelf` is the
`br_if(block.id())` conditional branch past the rest of the enclosing
block. -/
inductive Instr where
  | block (body : List Instr)
  | tryExcept (tryBranch exceptBranch : List Instr)
  | i32Const (n : Int)
  | i32Eqz
  | brIfSelf
  | callRuleMatch
  | condEval (e : Expr)

/-- Sequence emitted by `emit_bool_expr` for a condition.  Modelled
from the spec: represented abstractly as the single pseudo-instruction
standing for the evaluation code of the condition. -/
def emitBoolExpr (e : Expr) : List Instr := [Instr.condEval e]

/-! ## Compiled artifacts -/

/-- A compiled rule (`CompiledRule`): interned identifier and the
ordered `(IdentId, PatternId)` pairs of its patterns.  `PatternId` is
`i32` in the source, hence `Int` here. -/
structure CompiledRule where
  ident : IdentId
  patterns : List (IdentId × Int)
  deriving DecidableEq, Repr

/-- A pattern table entry (`struct Pattern {}` in the source: no
fields). -/
inductive Pattern where
  | mk
  deriving DecidableEq, Repr

/-- The compiler session state (`struct Compiler`).  The
`report_builder` and `colorize_errors` presentation fields carry no
semantic content and are omitted; the wasm module builder is
represented by the accumulated body of its main function. -/
structure Compiler where
  sym_tbl : SymTbl
  ident_pool : IdentPool
  wasm_main : List Instr
  rules : List CompiledRule
  patterns : List Pattern
  warnings : List Warning

/-- `Compiler::new`. -/
def Compiler.new : Compiler :=
  { sym_tbl := []
    ident_pool := ⟨[]⟩
    wasm_main := []
    rules := []
    patterns := []
    warnings := [] }

/-- The compiled artifact (`CompiledRules`).  The natively compiled
wasmtime module is derived from `wasm_mod` by an external engine and
is not represented separately. -/
structure CompiledRules where
  ident_pool : IdentPool
  wasm_mod : List Instr
  rules : List CompiledRule
  patterns : List Pattern

/-! ## Semantic checking

`semcheck!` and `warning_if_not_boolean` live in the semcheck module,
which is not under `src/`; both are modelled from the spec. -/

/-- Modelled from the spec: the semantic checker assigns a result type
to every expression node; identifier and member resolution reuses the
symbol table and unresolved names are a hard compile error.  The three
`string` module calls require the `string` module to be imported and
their arguments to be of the right scalar type. -/
def typeOfExpr (sym : SymTbl) : Expr → Except CompileErr Ty
  | Expr.boolLit _ => Except.ok Ty.bool
  | Expr.intLit _ => Except.ok Ty.integer
  | Expr.floatLit => Except.ok Ty.float
  | Expr.strLit _ => Except.ok Ty.str
  | Expr.identE name =>
    match symLookup sym name with
    | some t => Except.ok t
    | none => Except.error (CompileErr.unresolvedIdent name)
  | Expr.eqE a b => do
    let ta ← typeOfExpr sym a
    let tb ← typeOfExpr sym b
    if ta = tb ∧ ta ≠ Ty.structT then Except.ok Ty.bool
    else Except.error (CompileErr.wrongType tb)
  | Expr.gtE a b => do
    let ta ← typeOfExpr sym a
    let tb ← typeOfExpr sym b
    if ta = Ty.integer ∧ tb = Ty.integer then Except.ok Ty.bool
    else Except.error (CompileErr.wrongType tb)
  | Expr.ltE a b => do
    let ta ← typeOfExpr sym a
    let tb ← typeOfExpr sym b
    if ta = Ty.integer ∧ tb = Ty.integer then Except.ok Ty.bool
    else Except.error (CompileErr.wrongType tb)
  | Expr.callLength a => do
    match symLookup sym "string" with
    | some Ty.structT =>
      let ta ← typeOfExpr sym a
      if ta = Ty.str then Except.ok Ty.integer
      else Except.error (CompileErr.wrongType ta)
    | _ => Except.error (CompileErr.unresolvedIdent "string")
  | Expr.callToInt a => do
    match symLookup sym "string" with
    | some Ty.structT =>
      let ta ← typeOfExpr sym a
      if ta = Ty.str then Except.ok Ty.integer
      else Except.error (CompileErr.wrongType ta)
    | _ => Except.error (CompileErr.unresolvedIdent "string")
  | Expr.callToIntBase a b => do
    match symLookup sym "string" with
    | some Ty.structT =>
      let ta ← typeOfExpr sym a
      let tb ← typeOfExpr sym b
      if ta = Ty.str ∧ tb = Ty.integer then Except.ok Ty.integer
      else Except.error (CompileErr.wrongType tb)
    | _ => Except.error (CompileErr.unresolvedIdent "string")

/-- The set `Type::Bool | Type::Integer | Type::Float | Type::String`
passed to `semcheck!` at the top level of a rule condition (line 166
of mod.rs). -/
def allowedTopTypes (t : Ty) : Bool :=
  match t with
  | Ty.bool | Ty.integer | Ty.float | Ty.str => true
  | Ty.structT => false

/-- Modelled from the spec: `semcheck!(ctx, allowed, expr)` infers the
type of the condition and fails with a compile error when the inferred
type is not in the allowed set. -/
def semcheckTop (sym : SymTbl) (e : Expr) : Except CompileErr Ty :=
  match typeOfExpr sym e with
  | Except.error err => Except.error err
  | Except.ok t =>
    if allowedTopTypes t then Except.ok t
    else Except.error (CompileErr.wrongType t)

/-- Modelled from the spec: `warning_if_not_boolean` records one
warning when the condition result is not a boolean and must be
coerced. -/
def warningIfNotBoolean (t : Ty) : List Warning :=
  if t = Ty.bool then [] else [Warning.nonBooleanAsBoolean]

/-! ## Per-rule compilation (`Compiler::add_source`, lines 108-212) -/

/-- The pairs `(IdentID, PatternID)` built for the pattern
declarations of one rule (lines 118-136): each pattern identifier is
interned, and its `PatternId` is `self.patterns.len() as PatternId`
at the moment of the push — `next` is that running length and the
`i32` cast is `i32ofNat`. -/
def mkPairs (pool : IdentPool) (next : Nat) :
    List PatternDecl → List (IdentId × Int) × IdentPool
  | [] => ([], pool)
  | p :: rest =>
    let r := pool.getOrIntern p.identifier
    let r2 := mkPairs r.2 (next + 1) rest
    ((r.1, i32ofNat next) :: r2.1, r2.2)

/-- The code emitted into the main function for one rule (lines
178-207): one block holding the condition inside a `try_except`
handler whose except branch pushes `i32.const 0`, then `i32.eqz`, a
`br_if` out of the block, the `i32.const` with the rule id, and the
call of `rule_match`. -/
def ruleCode (ruleId : Int) (cond : Expr) : Instr :=
  Instr.block
    [ Instr.tryExcept (emitBoolExpr cond) [Instr.i32Const 0]
    , Instr.i32Eqz
    , Instr.brIfSelf
    , Instr.i32Const ruleId
    , Instr.callRuleMatch ]

/-- Compilation of one rule inside the `add_source` loop (lines
115-207), in source order: intern the pattern pairs and push the
pattern table entries, push the compiled rule, run the semantic check
(whose failure aborts with the tables already extended), record the
coercion warning, and emit the condition block.  The error branch also
carries the compiler state at the moment the error is returned, which
the Rust function drops together with the consumed `self`. -/
def compileRule (c : Compiler) (r : Rule) : Except (Error × Compiler) Compiler :=
  let pats := r.patterns.getD []
  let interned := mkPairs c.ident_pool c.patterns.length pats
  let rule_id := i32ofNat c.rules.length
  let identR := interned.2.getOrIntern r.identifier
  let c1 : Compiler :=
    { c with
      ident_pool := identR.2
      patterns := c.patterns ++ List.replicate pats.length Pattern.mk
      rules := c.rules ++ [{ ident := identR.1, patterns := interned.1 }] }
  -- the context borrows `self.sym_tbl`, which rule compilation never
  -- touches: `c1.sym_tbl` is `c.sym_tbl`
  match semcheckTop c.sym_tbl r.condition with
  | Except.error e => Except.error (Error.compileError e, c1)
  | Except.ok t =>
    let c2 := { c1 with warnings := c1.warnings ++ warningIfNotBoolean t }
    Except.ok { c2 with wasm_main := c2.wasm_main ++ [ruleCode rule_id r.condition] }

/-- `Compiler::process_imports` (lines 254-285): each imported module
is looked up in the registry of built-in modules; a hit is inserted
into the symbol table as a struct value, a miss is a hard
`unknown_module` compile error carrying the module name and its span.
The registry `BUILTIN_MODULES` is external to `src/` and is passed as
the list of known module names. -/
def processImports (registry : List String) (c : Compiler) :
    List Import → Except (Error × Compiler) Compiler
  | [] => Except.ok c
  | imp :: rest =>
    if registry.contains imp.module_name then
      processImports registry
        { c with sym_tbl := (imp.module_name, Ty.structT) :: c.sym_tbl } rest
    else
      Except.error
        (Error.compileError (CompileErr.unknownModule imp.module_name imp.span), c)

/-- The inner rule loop of `add_source` (line 115). -/
def compileRules (c : Compiler) : List Rule → Except (Error × Compiler) Compiler
  | [] => Except.ok c
  | r :: rest =>
    match compileRule c r with
    | Except.error e => Except.error e
    | Except.ok c1 => compileRules c1 rest

/-- One namespace of `add_source` (lines 108-209): imports first, then
the rules. -/
def compileNamespace (registry : List String) (c : Compiler) (ns : Namespace) :
    Except (Error × Compiler) Compiler :=
  match processImports registry c ns.imports with
  | Except.error e => Except.error e
  | Except.ok c1 => compileRules c1 ns.rules

/-- The namespace loop of `add_source`. -/
def compileNamespaces (registry : List String) (c : Compiler) :
    List Namespace → Except (Error × Compiler) Compiler
  | [] => Except.ok c
  | ns :: rest =>
    match compileNamespace registry c ns with
    | Except.error e => Except.error e
    | Except.ok c1 => compileNamespaces registry c1 rest

/-- `add_source` on an already parsed AST: transfer the parser
warnings (line 106), then process every namespace. -/
def addSourceAst (registry : List String) (c : Compiler) (ast : Ast) :
    Except (Error × Compiler) Compiler :=
  compileNamespaces registry { c with warnings := c.warnings ++ ast.warnings }
    ast.namespaces

/-- `Compiler::add_source` with the state at the moment of an error
kept alongside the error (the Rust function, taking `self` by value,
drops that state when it returns `Err`).  A parse failure occurs
before any mutation of the compiler. -/
def addSourceTraced (registry : List String) (c : Compiler) (src : SourceCode) :
    Except (Error × Compiler) Compiler :=
  match src with
  | SourceCode.parseFailed e => Except.error (Error.parseError e, c)
  | SourceCode.parsed ast => addSourceAst registry c ast

/-- `Compiler::add_source` as observable by the caller: on error only
the error survives. -/
def addSource (registry : List String) (c : Compiler) (src : SourceCode) :
    Except Error Compiler :=
  match addSourceTraced registry c src with
  | Except.error e => Except.error e.1
  | Except.ok c1 => Except.ok c1

/-- `Compiler::build` (lines 214-234): packages the identifier pool,
the finished wasm module and the rule table; the `patterns` field of
the artifact is set to `Vec::new()` in the source (line 231).  The
native wasmtime compilation of the module is performed by an external
engine and not represented. -/
def build (c : Compiler) : CompiledRules :=
  { ident_pool := c.ident_pool
    wasm_mod := c.wasm_main
    rules := c.rules
    patterns := [] }

/-- A full session: a fresh compiler fed a list of sources through
`add_source`, stopping at the first error (the builder chain). -/
def runSessionAux (registry : List String) (c : Compiler) :
    List SourceCode → Except (Error × Compiler) Compiler
  | [] => Except.ok c
  | s :: rest =>
    match addSourceTraced registry c s with
    | Except.error e => Except.error e
    | Except.ok c1 => runSessionAux registry c1 rest

/-- A session starting from `Compiler::new`. -/
def runSession (registry : List String) (srcs : List SourceCode) :
    Except (Error × Compiler) Compiler :=
  runSessionAux registry Compiler.new srcs

/-- The compiler state carried by an outcome: the final state on
success, the state at the moment of the error otherwise. -/
def stateOf (r : Except (Error × Compiler) Compiler) : Compiler :=
  match r with
  | Except.ok c => c
  | Except.error e => e.2

/-- Whether an `add_source` outcome is a success. -/
def compileOutcome (r : Except (Error × Compiler) Compiler) : Bool :=
  match r with
  | Except.ok _ => true
  | Except.error _ => false

/-! ## `Context::get_pattern_from_current_rule` (lines 352-363) -/

/-- The `for` loop of `get_pattern_from_current_rule` over
`current_rule.patterns`: resolve each interned identifier
(`resolve(...).unwrap()` panics on an invalid handle) and return the
`PatternId` of the first pair whose identifier equals the query; the
`panic!` after the loop is the crash on the empty tail. -/
def getPatternLoop (pool : IdentPool) (ident : String) :
    List (IdentId × Int) → RResult Int
  | [] => RResult.crash
  | pr :: rest =>
    match pool.resolve pr.1 with
    | none => RResult.crash
    | some s => if s = ident then RResult.ok pr.2 else getPatternLoop pool ident rest

/-- `Context::get_pattern_from_current_rule`: walk the pattern pairs
of the current rule in declaration order and return the `PatternId`
of the first pair whose identifier equals the query; panic when no
pair matches. -/
def get_pattern_from_current_rule (pool : IdentPool) (rule : CompiledRule)
    (ident : String) : RResult Int :=
  getPatternLoop pool ident rule.patterns

/-- First pattern pair of a rule whose identifier resolves to the
query, in declaration order. -/
def firstPatternMatch (pool : IdentPool) (ident : String) :
    List (IdentId × Int) → Option Int
  | [] => none
  | pr :: rest =>
    if pool.resolve pr.1 = some ident then some pr.2
    else firstPatternMatch pool ident rest

/-! ## Scan-time evaluation

The scanner and the generated wasm execution are outside `src/`; the
evaluation below is modelled from the spec: every sub-expression
produces a definite value or the "undefined" outcome, undefined
propagates, and module functions returning `None` raise undefined.
A module panic crashes the scan. -/

/-- Runtime values of the stack machine at the source level.
Floating-point values are not modelled (no claim evaluates a float);
integer comparisons are signed 64-bit. -/
inductive Value where
  | boolV (b : Bool)
  | intV (n : Int)
  | strV (bytes : List Nat)
  deriving DecidableEq, Repr

/-- Result of evaluating an expression: a value, the undefined
outcome, or a crash of the host. -/
inductive EvalRes where
  | val (v : Value)
  | undef
  | crashed
  deriving DecidableEq, Repr

/-- Lift a module function result into an evaluation result:
`Some` is a value, `None` raises undefined, a panic crashes. -/
def liftModule (r : RResult (Option Int)) : EvalRes :=
  match r with
  | RResult.ok (some n) => EvalRes.val (Value.intV n)
  | RResult.ok none => EvalRes.undef
  | RResult.crash => EvalRes.crashed

/-- Modelled from the spec: evaluation of a condition expression with
three-valued propagation.  Identifiers and floats are not given
runtime values here (no claim evaluates them); ill-typed combinations
are undefined. -/
def evalExpr : Expr → EvalRes
  | Expr.boolLit b => EvalRes.val (Value.boolV b)
  | Expr.intLit n => EvalRes.val (Value.intV n)
  | Expr.floatLit => EvalRes.undef
  | Expr.strLit s => EvalRes.val (Value.strV s)
  | Expr.identE _ => EvalRes.undef
  | Expr.eqE a b =>
    match evalExpr a, evalExpr b with
    | EvalRes.crashed, _ => EvalRes.crashed
    | _, EvalRes.crashed => EvalRes.crashed
    | EvalRes.undef, _ => EvalRes.undef
    | _, EvalRes.undef => EvalRes.undef
    | EvalRes.val (Value.intV x), EvalRes.val (Value.intV y) =>
      EvalRes.val (Value.boolV (x = y))
    | EvalRes.val (Value.strV x), EvalRes.val (Value.strV y) =>
      EvalRes.val (Value.boolV (x = y))
    | EvalRes.val (Value.boolV x), EvalRes.val (Value.boolV y) =>
      EvalRes.val (Value.boolV (x = y))
    | _, _ => EvalRes.undef
  | Expr.gtE a b =>
    match evalExpr a, evalExpr b with
    | EvalRes.crashed, _ => EvalRes.crashed
    | _, EvalRes.crashed => EvalRes.crashed
    | EvalRes.val (Value.intV x), EvalRes.val (Value.intV y) =>
      EvalRes.val (Value.boolV (y < x))
    | _, _ => EvalRes.undef
  | Expr.ltE a b =>
    match evalExpr a, evalExpr b with
    | EvalRes.crashed, _ => EvalRes.crashed
    | _, EvalRes.crashed => EvalRes.crashed
    | EvalRes.val (Value.intV x), EvalRes.val (Value.intV y) =>
      EvalRes.val (Value.boolV (x < y))
    | _, _ => EvalRes.undef
  | Expr.callLength a =>
    match evalExpr a with
    | EvalRes.val (Value.strV s) => liftModule (length s)
    | EvalRes.val _ => EvalRes.undef
    | r => r
  | Expr.callToInt a =>
    match evalExpr a with
    | EvalRes.val (Value.strV s) => liftModule (to_int s)
    | EvalRes.val _ => EvalRes.undef
    | r => r
  | Expr.callToIntBase a b =>
    match evalExpr a, evalExpr b with
    | EvalRes.crashed, _ => EvalRes.crashed
    | _, EvalRes.crashed => EvalRes.crashed
    | EvalRes.val (Value.strV s), EvalRes.val (Value.intV n) =>
      liftModule (to_int_base s n)
    | _, _ => EvalRes.undef

/-- Truthiness of a value when cast to boolean at the top level:
nonzero and non-empty are true. -/
def truthy (v : Value) : Bool :=
  match v with
  | Value.boolV b => b
  | Value.intV n => decide (n ≠ 0)
  | Value.strV s => decide (s ≠ [])

/-- Whether one rule condition matches at scan time: the emitted
handler turns an undefined condition into false; a panic crashes the
scan. -/
def condMatches (e : Expr) : RResult Bool :=
  match evalExpr e with
  | EvalRes.val v => RResult.ok (truthy v)
  | EvalRes.undef => RResult.ok false
  | EvalRes.crashed => RResult.crash

/-- Modelled from the spec: the entry function evaluates every rule
condition in declaration order and the scanner counts the matching
rules (`num_matching_rules`). -/
def scanNumMatching : List Expr → RResult Nat
  | [] => RResult.ok 0
  | e :: rest =>
    match condMatches e with
    | RResult.crash => RResult.crash
    | RResult.ok b =>
      match scanNumMatching rest with
      | RResult.crash => RResult.crash
      | RResult.ok n => RResult.ok ((if b then 1 else 0) + n)

/-! ## Specification-side helper functions -/

/-- The conditions of all rules of an AST, in compilation order. -/
def astConds (ast : Ast) : List Expr :=
  ast.namespaces.flatMap (fun ns => ns.rules.map (fun r => r.condition))

/-- The per-rule blocks that the claims say the entry function holds:
one `ruleCode` block per condition, with consecutively numbered rule
ids starting at `startId`. -/
def rulesWasm (startId : Nat) : List Expr → List Instr
  | [] => []
  | e :: rest => ruleCode (i32ofNat startId) e :: rulesWasm (startId + 1) rest

/-- All `PatternId` values assigned during a session, in assignment
order: the pattern pairs of the rule table, flattened. -/
def sessionPatternIds (c : Compiler) : List Int :=
  c.rules.flatMap (fun r => r.patterns.map (fun pr => pr.2))

/-- The rule id pushed in front of the `rule_match` call of one
emitted block. -/
def ruleIdOfBlock (i : Instr) : List Int :=
  match i with
  | Instr.block [_, _, _, Instr.i32Const n, Instr.callRuleMatch] => [n]
  | _ => []

/-- All `RuleId` constants passed to `rule_match` in the entry
function, in emission order. -/
def ruleIdsInWasm (l : List Instr) : List Int :=
  l.flatMap ruleIdOfBlock

/-! ## Theorems -/

/-- C3: for every byte string and every integer base, the
two-argument `string.to_int` returns a defined integer exactly when
the base lies in `[2, 36]` and the text parses as an integer in that
radix; every base outside `[2, 36]` yields the undefined outcome
`None`; and the function never panics. -/
theorem to_int_base_correct (bytes : List Nat) (base : Int) :
    to_int_base bytes base =
      RResult.ok
        (if 2 ≤ base ∧ base ≤ 36 then
          (if utf8Valid bytes then fromStrRadix bytes base.toNat else none)
         else none) ∧
    ((∃ n, to_int_base bytes base = RResult.ok (some n)) ↔
      (2 ≤ base ∧ base ≤ 36 ∧ utf8Valid bytes = true ∧
        (fromStrRadix bytes base.toNat).isSome = true)) ∧
    to_int_base bytes base ≠ RResult.crash := by
  have hmain : to_int_base bytes base =
      RResult.ok
        (if 2 ≤ base ∧ base ≤ 36 then
          (if utf8Valid bytes then fromStrRadix bytes base.toNat else none)
         else none) := by
    by_cases hb : base < 2 ∨ 36 < base
    · simp [to_int_base, hb, show ¬(2 ≤ base ∧ base ≤ 36) by omega]
    · have hb2 : 2 ≤ base ∧ base ≤ 36 := by omega
      cases hv : utf8Valid bytes with
      | true =>
        simp [to_int_base, hb, hv, hb2, u32TryFrom,
          show 0 ≤ base ∧ base ≤ 4294967295 by omega]
      | false => simp [to_int_base, hb, hv, hb2]
  refine ⟨hmain, ?_, ?_⟩
  · constructor
    · rintro ⟨n, hn⟩
      rw [hmain] at hn
      have h1 : (if 2 ≤ base ∧ base ≤ 36 then
          (if utf8Valid bytes then fromStrRadix bytes base.toNat else none)
         else none) = some n := by
        injection hn
      split_ifs at h1 with h2 h3
      · exact ⟨h2.1, h2.2, h3, by rw [h1]; rfl⟩
    · rintro ⟨h2, h3, h4, h5⟩
      rw [hmain]
      obtain ⟨n, hn⟩ := Option.isSome_iff_exists.mp h5
      exact ⟨n, by simp [h2, h3, h4, hn]⟩
  · rw [hmain]
    intro h
    exact RResult.noConfusion h

/-- C4 failing input: the one-argument `string.to_int` applied to the
valid UTF-8 text `"abc"`, which does not parse as an integer, panics
(the `unwrap` on the parse error) instead of returning the undefined
outcome. -/
theorem to_int_abc_panics : to_int [97, 98, 99] = RResult.crash := by decide

/-! ## Concrete fixtures from the end-to-end test
(src/yara-x/src/modules/string.rs, lines 51-85) -/

/-- UTF-8 bytes of `"AXsx00ERS"` (9 characters). -/
def bytesAX : List Nat := [65, 88, 115, 120, 48, 48, 69, 82, 83]

/-- UTF-8 bytes of `"1234"`. -/
def bytes1234 : List Nat := [49, 50, 51, 52]

/-- UTF-8 bytes of `"-10"`. -/
def bytesNeg10 : List Nat := [45, 49, 48]

/-- UTF-8 bytes of `"A"`. -/
def bytesA : List Nat := [65]

/-- UTF-8 bytes of `"011"`. -/
def bytes011 : List Nat := [48, 49, 49]

/-- UTF-8 bytes of `"-011"`. -/
def bytesNeg011 : List Nat := [45, 48, 49, 49]

/-- Condition of rules 1 and 2: `string.length("AXsx00ERS") == 9`. -/
def cond1 : Expr := Expr.eqE (Expr.callLength (Expr.strLit bytesAX)) (Expr.intLit 9)

/-- Condition of rule 3: `string.length("AXsx00ERS") > 9`. -/
def cond3 : Expr := Expr.gtE (Expr.callLength (Expr.strLit bytesAX)) (Expr.intLit 9)

/-- Condition of rule 4: `string.length("AXsx00ERS") < 9`. -/
def cond4 : Expr := Expr.ltE (Expr.callLength (Expr.strLit bytesAX)) (Expr.intLit 9)

/-- Condition of rule 5: `string.to_int("1234") == 1234`. -/
def cond5 : Expr := Expr.eqE (Expr.callToInt (Expr.strLit bytes1234)) (Expr.intLit 1234)

/-- Condition of rule 6: `string.to_int("-10") == -10`. -/
def cond6 : Expr := Expr.eqE (Expr.callToInt (Expr.strLit bytesNeg10)) (Expr.intLit (-10))

/-- Condition of rule 7: `string.to_int("-10") == -8`. -/
def cond7 : Expr := Expr.eqE (Expr.callToInt (Expr.strLit bytesNeg10)) (Expr.intLit (-8))

/-- Condition of rule 8: `string.to_int("A", 16) == 10`. -/
def cond8 : Expr :=
  Expr.eqE (Expr.callToIntBase (Expr.strLit bytesA) (Expr.intLit 16)) (Expr.intLit 10)

/-- Condition of rule 9: `string.to_int("011", 8) == 9`. -/
def cond9 : Expr :=
  Expr.eqE (Expr.callToIntBase (Expr.strLit bytes011) (Expr.intLit 8)) (Expr.intLit 9)

/-- Condition of rule 10: `string.to_int("-011", 0) == -9`. -/
def cond10 : Expr :=
  Expr.eqE (Expr.callToIntBase (Expr.strLit bytesNeg011) (Expr.intLit 0)) (Expr.intLit (-9))

/-- A rule with no pattern declarations. -/
def mkTestRule (name : String) (cond : Expr) : Rule :=
  { identifier := name, patterns := none, condition := cond }

/-- The source unit of the end-to-end test: one namespace importing
`"string"` and declaring the ten rules. -/
def ast10 : Ast :=
  { namespaces :=
      [ { imports := [{ module_name := "string", span := (0, 15) }]
        , rules :=
            [ mkTestRule "rule_1" cond1, mkTestRule "rule_2" cond1
            , mkTestRule "rule_3" cond3, mkTestRule "rule_4" cond4
            , mkTestRule "rule_5" cond5, mkTestRule "rule_6" cond6
            , mkTestRule "rule_7" cond7, mkTestRule "rule_8" cond8
            , mkTestRule "rule_9" cond9, mkTestRule "rule_10" cond10 ] } ]
    warnings := [] }

/-- C9: compiling the ten rules of the end-to-end test succeeds and
scanning (an empty input buffer; the `string` module reads no input
data) yields exactly 6 matching rules — rules 1, 2, 5, 6, 8, 9 match
and rules 3, 4, 7, 10 do not. -/
theorem end2end_six_matches :
    compileOutcome (addSourceAst ["string"] Compiler.new ast10) = true ∧
    scanNumMatching (astConds ast10) = RResult.ok 6 ∧
    (astConds ast10).map condMatches =
      [ RResult.ok true, RResult.ok true, RResult.ok false, RResult.ok false
      , RResult.ok true, RResult.ok true, RResult.ok false, RResult.ok true
      , RResult.ok true, RResult.ok false ] := by decide

/-! ## Evidence for C5 and C6 -/

/-- A source unit with one rule declaring one pattern. -/
def astOnePattern : Ast :=
  { namespaces :=
      [ { imports := []
        , rules :=
            [ { identifier := "r"
              , patterns := some [{ identifier := "$a" }]
              , condition := Expr.boolLit true } ] } ]
    warnings := [] }

/-- C5 failing input: after a successful `add_source` call that
registered one pattern (so the session pattern table has an entry at
`PatternId` 0), `build` packages an artifact whose pattern table is
empty — the source sets the field to `Vec::new()` — although the rule
table and identifier pool are carried over. -/
theorem build_drops_patterns :
    compileOutcome (addSourceAst [] Compiler.new astOnePattern) = true ∧
    (stateOf (addSourceAst [] Compiler.new astOnePattern)).patterns.length = 1 ∧
    (build (stateOf (addSourceAst [] Compiler.new astOnePattern))).patterns = [] ∧
    (build (stateOf (addSourceAst [] Compiler.new astOnePattern))).rules =
      (stateOf (addSourceAst [] Compiler.new astOnePattern)).rules ∧
    (build (stateOf (addSourceAst [] Compiler.new astOnePattern))).ident_pool =
      (stateOf (addSourceAst [] Compiler.new astOnePattern)).ident_pool := by decide

/-- Two imports of the module `"string"` in one namespace. -/
def dupImports : List Import :=
  [ { module_name := "string", span := (0, 14) }
  , { module_name := "string", span := (15, 29) } ]

/-- C6 failing input: processing a duplicate import of a known module
succeeds and continues, but records no warning at all — the warnings
list stays empty, although the call-site comment announces warnings
for duplicated imports.  The module is simply inserted into the
symbol table twice. -/
theorem dup_import_no_warning :
    compileOutcome (processImports ["string"] Compiler.new dupImports) = true ∧
    (stateOf (processImports ["string"] Compiler.new dupImports)).warnings = [] ∧
    (stateOf (processImports ["string"] Compiler.new dupImports)).sym_tbl =
      [("string", Ty.structT), ("string", Ty.structT)] := by decide

/-- The unknown-import half of C6 holds: importing a name outside the
registry is a hard compile error carrying the module name and its
span, returned before any rule of the namespace is processed. -/
theorem unknown_import_rejected (registry : List String) (c : Compiler)
    (imp : Import) (rest : List Import)
    (h : registry.contains imp.module_name = false) :
    processImports registry c (imp :: rest) =
      Except.error
        (Error.compileError (CompileErr.unknownModule imp.module_name imp.span), c) := by
  simp only [processImports]
  rw [h]
  simp

/-- Witness for `unknown_import_rejected`: the import of
`"nonexistent_module"` against the registry holding only `"string"`. -/
theorem unknown_import_rejected_witness :
    processImports ["string"] Compiler.new
        [{ module_name := "nonexistent_module", span := (0, 28) }] =
      Except.error
        (Error.compileError
          (CompileErr.unknownModule "nonexistent_module" (0, 28)), Compiler.new) :=
  unknown_import_rejected ["string"] Compiler.new
    { module_name := "nonexistent_module", span := (0, 28) } [] (by decide)

/-! ## C8: top-level type coercion -/

/-- A source unit with a single rule, no patterns, and the given
condition. -/
def oneRuleAst (cond : Expr) : Ast :=
  { namespaces :=
      [ { imports := []
        , rules := [{ identifier := "r", patterns := none, condition := cond }] } ]
    warnings := [] }

/-- C8: a rule whose condition has a top-level type in
{Bool, Integer, Float, String} compiles successfully; when the type is
not Bool, exactly one coercion warning is recorded for the rule, and
never an error. -/
theorem toplevel_coercion_warning (cond : Expr) (t : Ty)
    (h : typeOfExpr [] cond = Except.ok t) (ht : allowedTopTypes t = true) :
    compileOutcome (addSourceAst [] Compiler.new (oneRuleAst cond)) = true ∧
    (stateOf (addSourceAst [] Compiler.new (oneRuleAst cond))).warnings =
      (if t = Ty.bool then [] else [Warning.nonBooleanAsBoolean]) := by
  simp [addSourceAst, compileNamespaces, compileNamespace, processImports,
    compileRules, compileRule, oneRuleAst, Compiler.new, semcheckTop, h, ht,
    mkPairs, warningIfNotBoolean, stateOf, compileOutcome]

/-- Witness for `toplevel_coercion_warning`: a bare integer condition
compiles and records exactly the one coercion warning. -/
theorem toplevel_coercion_warning_witness :
    compileOutcome (addSourceAst [] Compiler.new (oneRuleAst (Expr.intLit 7))) = true ∧
    (stateOf (addSourceAst [] Compiler.new (oneRuleAst (Expr.intLit 7)))).warnings =
      (if Ty.integer = Ty.bool then [] else [Warning.nonBooleanAsBoolean]) :=
  toplevel_coercion_warning (Expr.intLit 7) Ty.integer rfl rfl

/-! ## C10: pattern lookup in the current rule -/

/-- The loop returns the first matching pair, in declaration order,
when every handle of the rule resolves in the pool. -/
theorem getPatternLoop_first_match (pool : IdentPool) (ident : String)
    (l : List (IdentId × Int))
    (hval : ∀ pr ∈ l, (pool.resolve pr.1).isSome = true) :
    getPatternLoop pool ident l =
      (match firstPatternMatch pool ident l with
       | some pid => RResult.ok pid
       | none => RResult.crash) := by
  induction l with
  | nil => rfl
  | cons pr rest ih =>
    have h1 : (pool.resolve pr.1).isSome = true := hval pr (by simp)
    obtain ⟨s, hs⟩ := Option.isSome_iff_exists.mp h1
    by_cases he : s = ident
    · simp [getPatternLoop, firstPatternMatch, hs, he]
    · simp only [getPatternLoop, firstPatternMatch, hs, he]
      simp only [if_neg he, show ¬(some s = some ident) by simp [he]]
      exact ih (fun q hq => hval q (by simp [hq]))

/-- C10: for every rule whose pattern pairs all carry handles interned
in the pool, `get_pattern_from_current_rule` returns the `PatternId`
of the first pair (in declaration order) whose identifier resolves to
the query — so with duplicate identifiers the earliest registration
wins — and panics when no pair matches. -/
theorem get_pattern_first_match (pool : IdentPool) (rule : CompiledRule)
    (ident : String)
    (hval : ∀ pr ∈ rule.patterns, (pool.resolve pr.1).isSome = true) :
    get_pattern_from_current_rule pool rule ident =
      (match firstPatternMatch pool ident rule.patterns with
       | some pid => RResult.ok pid
       | none => RResult.crash) :=
  getPatternLoop_first_match pool ident rule.patterns hval

/-- Witness for `get_pattern_first_match`: a rule declaring the
pattern identifier `$a` twice, with `PatternId` 5 first and 9 second;
lookup of `$a` returns 5, and lookup of the absent `$b` panics. -/
theorem get_pattern_first_match_witness :
    get_pattern_from_current_rule ⟨["$a", "r"]⟩ ⟨1, [(0, 5), (0, 9)]⟩ "$a" =
        RResult.ok 5 ∧
    get_pattern_from_current_rule ⟨["$a", "r"]⟩ ⟨1, [(0, 5), (0, 9)]⟩ "$b" =
        RResult.crash := by
  constructor
  · rw [get_pattern_first_match ⟨["$a", "r"]⟩ ⟨1, [(0, 5), (0, 9)]⟩ "$a"
      (by decide)]
    rfl
  · rw [get_pattern_first_match ⟨["$a", "r"]⟩ ⟨1, [(0, 5), (0, 9)]⟩ "$b"
      (by decide)]
    rfl

/-! ## Structural lemmas about the `add_source` fold -/

/-- On success, one rule compilation appends exactly one emitted block
(with the rule id taken from the rule table length), one rule table
entry holding the interned pattern pairs, and the pattern table
entries of the rule; the symbol table is untouched. -/
theorem compileRule_ok_parts (c : Compiler) (r : Rule) (c' : Compiler)
    (h : compileRule c r = Except.ok c') :
    c'.wasm_main = c.wasm_main ++ [ruleCode (i32ofNat c.rules.length) r.condition] ∧
    (∃ iid, c'.rules = c.rules ++
      [{ ident := iid
       , patterns := (mkPairs c.ident_pool c.patterns.length (r.patterns.getD [])).1 }]) ∧
    c'.patterns = c.patterns ++ List.replicate (r.patterns.getD []).length Pattern.mk ∧
    c'.sym_tbl = c.sym_tbl := by
  unfold compileRule at h
  cases hs : semcheckTop c.sym_tbl r.condition with
  | error e =>
    rw [hs] at h
    simp at h
  | ok t =>
    rw [hs] at h
    simp only [Except.ok.injEq] at h
    subst h
    refine ⟨rfl, ⟨_, rfl⟩, rfl, rfl⟩

/-- On a semantic-check failure, the state carried with the error
already holds the rule table entry and the pattern table entries of
the failing rule; the emitted code and the warnings are unchanged. -/
theorem compileRule_error_parts (c : Compiler) (r : Rule) (e : Error × Compiler)
    (h : compileRule c r = Except.error e) :
    e.2.wasm_main = c.wasm_main ∧
    (∃ iid, e.2.rules = c.rules ++
      [{ ident := iid
       , patterns := (mkPairs c.ident_pool c.patterns.length (r.patterns.getD [])).1 }]) ∧
    e.2.patterns = c.patterns ++ List.replicate (r.patterns.getD []).length Pattern.mk ∧
    e.2.sym_tbl = c.sym_tbl ∧
    e.2.warnings = c.warnings := by
  unfold compileRule at h
  cases hs : semcheckTop c.sym_tbl r.condition with
  | error err =>
    rw [hs] at h
    simp only [Except.error.injEq] at h
    subst h
    refine ⟨rfl, ⟨_, rfl⟩, rfl, rfl, rfl⟩
  | ok t =>
    rw [hs] at h
    simp at h

/-- Import processing touches only the symbol table: the rule table,
the pattern table, the emitted code, the warnings and the identifier
pool are unchanged on both the success and the error path. -/
theorem processImports_state (registry : List String) (l : List Import)
    (c : Compiler) :
    (stateOf (processImports registry c l)).wasm_main = c.wasm_main ∧
    (stateOf (processImports registry c l)).rules = c.rules ∧
    (stateOf (processImports registry c l)).patterns = c.patterns ∧
    (stateOf (processImports registry c l)).warnings = c.warnings ∧
    (stateOf (processImports registry c l)).ident_pool = c.ident_pool := by
  induction l generalizing c with
  | nil => simp [processImports, stateOf]
  | cons imp rest ih =>
    by_cases hm : imp.module_name ∈ registry
    · simpa [processImports, hm] using
        ih { c with sym_tbl := (imp.module_name, Ty.structT) :: c.sym_tbl }
    · simp [processImports, hm, stateOf]

/-- `processImports_state` specialized to a successful run. -/
theorem processImports_ok_state (registry : List String) (l : List Import)
    (c c1 : Compiler) (h : processImports registry c l = Except.ok c1) :
    c1.wasm_main = c.wasm_main ∧ c1.rules = c.rules ∧ c1.patterns = c.patterns ∧
    c1.warnings = c.warnings ∧ c1.ident_pool = c.ident_pool := by
  have hst := processImports_state registry l c
  rw [h] at hst
  simpa [stateOf] using hst

/-- A successful rule loop appends exactly the blocks of `rulesWasm`,
numbered from the incoming rule table length, and grows the rule table
by one entry per rule; the symbol table is untouched. -/
theorem compileRules_ok_parts (l : List Rule) (c c' : Compiler)
    (h : compileRules c l = Except.ok c') :
    c'.wasm_main = c.wasm_main ++
      rulesWasm c.rules.length (l.map (fun r => r.condition)) ∧
    c'.rules.length = c.rules.length + l.length ∧
    c'.sym_tbl = c.sym_tbl := by
  induction l generalizing c with
  | nil =>
    simp only [compileRules, Except.ok.injEq] at h
    subst h
    simp [rulesWasm]
  | cons r rest ih =>
    unfold compileRules at h
    cases hr : compileRule c r with
    | error e => rw [hr] at h; simp at h
    | ok c1 =>
      rw [hr] at h
      obtain ⟨hw, hlen, hsym⟩ := ih c1 h
      obtain ⟨h1w, ⟨iid, h1r⟩, h1p, h1s⟩ := compileRule_ok_parts c r c1 hr
      have hlen1 : c1.rules.length = c.rules.length + 1 := by simp [h1r]
      refine ⟨?_, ?_, ?_⟩
      · rw [hw, h1w, hlen1]
        simp [rulesWasm, List.append_assoc]
      · rw [hlen, hlen1]
        simp [List.length_cons]
        omega
      · rw [hsym, h1s]

/-- `rulesWasm` splits over list append, continuing the numbering. -/
theorem rulesWasm_append (n : Nat) (xs ys : List Expr) :
    rulesWasm n (xs ++ ys) = rulesWasm n xs ++ rulesWasm (n + xs.length) ys := by
  induction xs generalizing n with
  | nil => simp [rulesWasm]
  | cons e rest ih =>
    simp only [List.cons_append, rulesWasm, List.append_eq, ih, List.length_cons]
    have h2 : n + (rest.length + 1) = n + 1 + rest.length := by omega
    rw [h2]

/-- A successful namespace loop appends exactly the blocks of
`rulesWasm` for all its rule conditions, numbered from the incoming
rule table length. -/
theorem compileNamespaces_ok_parts (registry : List String)
    (nss : List Namespace) (c c' : Compiler)
    (h : compileNamespaces registry c nss = Except.ok c') :
    c'.wasm_main = c.wasm_main ++
      rulesWasm c.rules.length
        (nss.flatMap (fun ns => ns.rules.map (fun r => r.condition))) ∧
    c'.rules.length =
      c.rules.length + (nss.flatMap (fun ns => ns.rules)).length := by
  induction nss generalizing c with
  | nil =>
    simp only [compileNamespaces, Except.ok.injEq] at h
    subst h
    simp [rulesWasm]
  | cons ns rest ih =>
    unfold compileNamespaces at h
    cases hn : compileNamespace registry c ns with
    | error e => rw [hn] at h; simp at h
    | ok c1 =>
      rw [hn] at h
      unfold compileNamespace at hn
      cases hi : processImports registry c ns.imports with
      | error e => rw [hi] at hn; simp at hn
      | ok cI =>
        rw [hi] at hn
        obtain ⟨hIw, hIr, _, _, _⟩ := processImports_ok_state registry ns.imports c cI hi
        obtain ⟨h1w, h1len, _⟩ := compileRules_ok_parts ns.rules cI c1 hn
        obtain ⟨hw, hlen⟩ := ih c1 h
        constructor
        · rw [hw, h1w, hIw, hIr, h1len, hIr]
          rw [List.flatMap_cons, rulesWasm_append, List.length_map,
            List.append_assoc]
        · rw [hlen, h1len, hIr]
          simp [List.flatMap_cons]
          omega

/-- C1: whenever `add_source` succeeds, the code it appended to the
entry function is, for every rule of the source unit in order, exactly
one block holding the condition inside one `try_except` handler whose
except branch pushes the `i32` constant 0, followed by the zero test,
the conditional branch past the rest of the block, the push of the
`RuleId` constant, and the call of the `rule_match` import — that is,
`rulesWasm` applied to the conditions, numbered from the previous rule
count. -/
theorem addSource_emits_rule_shape (registry : List String) (c : Compiler)
    (ast : Ast) (c' : Compiler)
    (h : addSourceAst registry c ast = Except.ok c') :
    c'.wasm_main = c.wasm_main ++ rulesWasm c.rules.length (astConds ast) := by
  unfold addSourceAst at h
  have hp := compileNamespaces_ok_parts registry ast.namespaces
    { c with warnings := c.warnings ++ ast.warnings } c' h
  simpa [astConds] using hp.1

/-- Witness for `addSource_emits_rule_shape`: a single-rule source
unit emits exactly its one block. -/
theorem addSource_emits_rule_shape_witness :
    (stateOf (addSourceAst [] Compiler.new (oneRuleAst (Expr.boolLit true)))).wasm_main =
      Compiler.new.wasm_main ++
        rulesWasm Compiler.new.rules.length (astConds (oneRuleAst (Expr.boolLit true))) :=
  addSource_emits_rule_shape [] Compiler.new (oneRuleAst (Expr.boolLit true))
    (stateOf (addSourceAst [] Compiler.new (oneRuleAst (Expr.boolLit true)))) (by rfl)

/-! ## C2: table growth across `add_source` -/

/-- The rule and pattern tables of `c2` extend those of `c1`. -/
def tablesGrow (c1 c2 : Compiler) : Prop :=
  (∃ t, c2.rules = c1.rules ++ t) ∧ (∃ t, c2.patterns = c1.patterns ++ t)

/-- Growth is reflexive. -/
theorem tablesGrow_refl (c : Compiler) : tablesGrow c c :=
  ⟨⟨[], by simp⟩, ⟨[], by simp⟩⟩

/-- Growth is transitive. -/
theorem tablesGrow_trans {a b c : Compiler}
    (h1 : tablesGrow a b) (h2 : tablesGrow b c) : tablesGrow a c := by
  obtain ⟨⟨t1, hr1⟩, ⟨u1, hp1⟩⟩ := h1
  obtain ⟨⟨t2, hr2⟩, ⟨u2, hp2⟩⟩ := h2
  exact ⟨⟨t1 ++ t2, by rw [hr2, hr1, List.append_assoc]⟩,
    ⟨u1 ++ u2, by rw [hp2, hp1, List.append_assoc]⟩⟩

/-- One rule compilation only appends to the tables, on the success
and on the error path alike. -/
theorem compileRule_grow (c : Compiler) (r : Rule) :
    tablesGrow c (stateOf (compileRule c r)) := by
  cases h : compileRule c r with
  | ok c1 =>
    obtain ⟨_, ⟨iid, hr⟩, hp, _⟩ := compileRule_ok_parts c r c1 h
    exact ⟨⟨_, by simpa [stateOf] using hr⟩, ⟨_, by simpa [stateOf] using hp⟩⟩
  | error e =>
    obtain ⟨_, ⟨iid, hr⟩, hp, _, _⟩ := compileRule_error_parts c r e h
    exact ⟨⟨_, by simpa [stateOf] using hr⟩, ⟨_, by simpa [stateOf] using hp⟩⟩

/-- The rule loop only appends to the tables. -/
theorem compileRules_grow (l : List Rule) (c : Compiler) :
    tablesGrow c (stateOf (compileRules c l)) := by
  induction l generalizing c with
  | nil => exact tablesGrow_refl c
  | cons r rest ih =>
    unfold compileRules
    cases h : compileRule c r with
    | error e =>
      have := compileRule_grow c r
      rw [h] at this
      simpa [stateOf] using this
    | ok c1 =>
      have h1 : tablesGrow c c1 := by
        have := compileRule_grow c r
        rw [h] at this
        simpa [stateOf] using this
      exact tablesGrow_trans h1 (ih c1)

/-- Import processing only appends to the tables (it never touches
them). -/
theorem processImports_grow (registry : List String) (l : List Import)
    (c : Compiler) : tablesGrow c (stateOf (processImports registry c l)) := by
  obtain ⟨_, hr, hp, _, _⟩ := processImports_state registry l c
  exact ⟨⟨[], by simp [hr]⟩, ⟨[], by simp [hp]⟩⟩

/-- The namespace loop only appends to the tables. -/
theorem compileNamespaces_grow (registry : List String) (nss : List Namespace)
    (c : Compiler) : tablesGrow c (stateOf (compileNamespaces registry c nss)) := by
  induction nss generalizing c with
  | nil => exact tablesGrow_refl c
  | cons ns rest ih =>
    unfold compileNamespaces
    have hns : tablesGrow c (stateOf (compileNamespace registry c ns)) := by
      unfold compileNamespace
      cases hi : processImports registry c ns.imports with
      | error e =>
        have := processImports_grow registry ns.imports c
        rw [hi] at this
        simpa [stateOf] using this
      | ok cI =>
        have h1 : tablesGrow c cI := by
          have := processImports_grow registry ns.imports c
          rw [hi] at this
          simpa [stateOf] using this
        exact tablesGrow_trans h1 (compileRules_grow ns.rules cI)
    cases hn : compileNamespace registry c ns with
    | error e =>
      rw [hn] at hns
      simpa [stateOf] using hns
    | ok c1 =>
      rw [hn] at hns
      simp only [stateOf] at hns
      exact tablesGrow_trans hns (ih c1)

/-- C2 (amended): across every `add_source` call — also one that
returns an error — the rule and pattern tables only grow: the rules of
earlier calls and of earlier rules of the same call stay registered
unchanged, and a parse failure leaves the whole state untouched.  (The
rollback stated by the claim does not happen; see the
counterexample.) -/
theorem addSource_table_growth (registry : List String) (c : Compiler)
    (src : SourceCode) :
    (∃ t, (stateOf (addSourceTraced registry c src)).rules = c.rules ++ t) ∧
    (∃ t, (stateOf (addSourceTraced registry c src)).patterns = c.patterns ++ t) ∧
    (∀ e : ParserError,
      stateOf (addSourceTraced registry c (SourceCode.parseFailed e)) = c) := by
  refine ⟨?_, ?_, fun e => rfl⟩ <;>
  · cases src with
    | parseFailed e => exact ⟨[], by simp [addSourceTraced, stateOf]⟩
    | parsed ast =>
      have hg := compileNamespaces_grow registry ast.namespaces
        { c with warnings := c.warnings ++ ast.warnings }
      have : tablesGrow c (stateOf (addSourceTraced registry c (SourceCode.parsed ast))) := by
        simpa [addSourceTraced, addSourceAst, tablesGrow] using hg
      first
      | exact this.1
      | exact this.2

/-- A source unit whose single rule declares one pattern and has a
semantically invalid condition (an unresolved identifier). -/
def badAst : Ast :=
  { namespaces :=
      [ { imports := []
        , rules :=
            [ { identifier := "r"
              , patterns := some [{ identifier := "$a" }]
              , condition := Expr.identE "undeclared" } ] } ]
    warnings := [] }

/-- Counterexample to C2 as stated: an `add_source` call whose only
rule fails its semantic check returns an error, yet at the moment the
error is returned the rule table and the pattern table of that call
hold one entry each (the failing rule and its pattern were pushed
before the semantic check ran and are not rolled back); the Rust
function then drops the whole compiler together with those tables, so
the caller cannot retry on the prior state either. -/
theorem addSource_not_atomic :
    compileOutcome (addSourceTraced [] Compiler.new (SourceCode.parsed badAst)) = false ∧
    Compiler.new.rules.length = 0 ∧
    Compiler.new.patterns.length = 0 ∧
    (stateOf (addSourceTraced [] Compiler.new (SourceCode.parsed badAst))).rules.length = 1 ∧
    (stateOf (addSourceTraced [] Compiler.new (SourceCode.parsed badAst))).patterns.length = 1 := by
  decide

/-! ## C7: dense handle allocation -/

/-- The `PatternId` values interned for one pattern list are the
`i32` casts of the consecutive running table lengths. -/
theorem mkPairs_snd (pats : List PatternDecl) (pool : IdentPool) (k : Nat) :
    ((mkPairs pool k pats).1).map (fun pr => pr.2) =
      (List.range' k pats.length).map i32ofNat := by
  induction pats generalizing pool k with
  | nil => rfl
  | cons p rest ih =>
    simp [mkPairs, List.range'_succ, ih]

/-- Invariant of a compiler session started at `Compiler::new`: the
pattern ids recorded in the rule table are exactly the `i32` casts of
`0, 1, ...` up to the pattern table length, and the rule ids pushed in
the emitted blocks are exactly the `i32` casts of `0, 1, ...` up to
the rule table length. -/
def denseInv (c : Compiler) : Prop :=
  sessionPatternIds c = (List.range c.patterns.length).map i32ofNat ∧
  ruleIdsInWasm c.wasm_main = (List.range c.rules.length).map i32ofNat

/-- The extraction of the rule id from an emitted block. -/
theorem ruleIdOfBlock_ruleCode (id : Int) (cond : Expr) :
    ruleIdOfBlock (ruleCode id cond) = [id] := rfl

/-- A successful rule compilation preserves the density invariant. -/
theorem compileRule_denseInv (c : Compiler) (r : Rule) (c' : Compiler)
    (h : compileRule c r = Except.ok c') (hc : denseInv c) : denseInv c' := by
  obtain ⟨hw, ⟨iid, hr⟩, hp, _⟩ := compileRule_ok_parts c r c' h
  constructor
  · have hlen : c'.patterns.length =
        c.patterns.length + (r.patterns.getD []).length := by
      simp [hp]
    rw [sessionPatternIds, hr, List.flatMap_append, hlen]
    have hpairs : (([⟨iid, (mkPairs c.ident_pool c.patterns.length
            (r.patterns.getD [])).1⟩] : List CompiledRule)).flatMap
          (fun r => r.patterns.map (fun pr => pr.2)) =
        (List.range' c.patterns.length (r.patterns.getD []).length).map i32ofNat := by
      simp [mkPairs_snd]
    rw [hpairs]
    have h1 : sessionPatternIds c = c.rules.flatMap
        (fun r => r.patterns.map (fun pr => pr.2)) := rfl
    rw [← h1, hc.1, List.range_add, List.map_append, List.range'_eq_map_range,
      List.map_map]
  · have hlen : c'.rules.length = c.rules.length + 1 := by simp [hr]
    rw [ruleIdsInWasm, hw, List.flatMap_append, hlen, List.range_succ]
    have h1 : ruleIdsInWasm c.wasm_main = c.wasm_main.flatMap ruleIdOfBlock := rfl
    rw [← h1, hc.2, List.map_append]
    simp [ruleIdOfBlock_ruleCode]

/-- The rule loop preserves the density invariant on success. -/
theorem compileRules_denseInv (l : List Rule) (c c' : Compiler)
    (h : compileRules c l = Except.ok c') (hc : denseInv c) : denseInv c' := by
  induction l generalizing c with
  | nil =>
    simp only [compileRules, Except.ok.injEq] at h
    subst h
    exact hc
  | cons r rest ih =>
    unfold compileRules at h
    cases hr : compileRule c r with
    | error e => rw [hr] at h; simp at h
    | ok c1 =>
      rw [hr] at h
      exact ih c1 h (compileRule_denseInv c r c1 hr hc)

/-- Import processing preserves the density invariant. -/
theorem processImports_denseInv (registry : List String) (l : List Import)
    (c c1 : Compiler) (h : processImports registry c l = Except.ok c1)
    (hc : denseInv c) : denseInv c1 := by
  obtain ⟨hw, hr, hp, _, _⟩ := processImports_ok_state registry l c c1 h
  constructor
  · rw [sessionPatternIds, hr, hp]
    exact hc.1
  · rw [hw, hr]
    exact hc.2

/-- The namespace loop preserves the density invariant on success. -/
theorem compileNamespaces_denseInv (registry : List String)
    (nss : List Namespace) (c c' : Compiler)
    (h : compileNamespaces registry c nss = Except.ok c') (hc : denseInv c) :
    denseInv c' := by
  induction nss generalizing c with
  | nil =>
    simp only [compileNamespaces, Except.ok.injEq] at h
    subst h
    exact hc
  | cons ns rest ih =>
    unfold compileNamespaces at h
    cases hn : compileNamespace registry c ns with
    | error e => rw [hn] at h; simp at h
    | ok c1 =>
      rw [hn] at h
      unfold compileNamespace at hn
      cases hi : processImports registry c ns.imports with
      | error e => rw [hi] at hn; simp at hn
      | ok cI =>
        rw [hi] at hn
        exact ih c1 h (compileRules_denseInv ns.rules cI c1 hn
          (processImports_denseInv registry ns.imports c cI hi hc))

/-- One `add_source` call preserves the density invariant on
success. -/
theorem addSourceTraced_denseInv (registry : List String) (c c' : Compiler)
    (src : SourceCode) (h : addSourceTraced registry c src = Except.ok c')
    (hc : denseInv c) : denseInv c' := by
  cases src with
  | parseFailed e => simp [addSourceTraced] at h
  | parsed ast =>
    have hinv : denseInv { c with warnings := c.warnings ++ ast.warnings } := by
      obtain ⟨h1, h2⟩ := hc
      exact ⟨h1, h2⟩
    exact compileNamespaces_denseInv registry ast.namespaces _ c' h hinv

/-- A whole session preserves the density invariant on success. -/
theorem runSessionAux_denseInv (registry : List String)
    (srcs : List SourceCode) (c c' : Compiler)
    (h : runSessionAux registry c srcs = Except.ok c') (hc : denseInv c) :
    denseInv c' := by
  induction srcs generalizing c with
  | nil =>
    simp only [runSessionAux, Except.ok.injEq] at h
    subst h
    exact hc
  | cons s rest ih =>
    unfold runSessionAux at h
    cases hs : addSourceTraced registry c s with
    | error e => rw [hs] at h; simp at h
    | ok c1 =>
      rw [hs] at h
      exact ih c1 h (addSourceTraced_denseInv registry c c1 s hs hc)

/-- The fresh compiler satisfies the density invariant. -/
theorem denseInv_new : denseInv Compiler.new := ⟨rfl, rfl⟩

/-- C7 (amended): within one session — any number of `add_source`
calls from `Compiler::new` — the `PatternId` values recorded in the
rule table and the `RuleId` values pushed in the emitted blocks are
exactly `0, 1, ..., n-1` in assignment order, with no gaps and no
reuse, provided the session assigns at most `2^31` patterns and at
most `2^31` rules (beyond that the `usize` to `i32` cast of the table
length wraps; see the counterexample). -/
theorem dense_ids (registry : List String) (srcs : List SourceCode)
    (c' : Compiler) (h : runSession registry srcs = Except.ok c')
    (hp : c'.patterns.length ≤ 2147483648)
    (hr : c'.rules.length ≤ 2147483648) :
    sessionPatternIds c' = (List.range c'.patterns.length).map Int.ofNat ∧
    ruleIdsInWasm c'.wasm_main = (List.range c'.rules.length).map Int.ofNat := by
  have hinv : denseInv c' :=
    runSessionAux_denseInv registry srcs Compiler.new c' h denseInv_new
  have key : ∀ n, n ≤ 2147483648 →
      (List.range n).map i32ofNat = (List.range n).map Int.ofNat := by
    intro n hn
    apply List.map_congr_left
    intro x hx
    have hlt : x < n := List.mem_range.mp hx
    have hx32 : x < 2147483648 := by omega
    have hmod : x % 4294967296 = x := Nat.mod_eq_of_lt (by omega)
    simp only [i32ofNat, hmod]
    rw [if_pos (by exact_mod_cast hx32)]
    rfl
  exact ⟨hinv.1.trans (key _ hp), hinv.2.trans (key _ hr)⟩

/-- Witness for `dense_ids`: the one-pattern session gets pattern id
0 and rule id 0. -/
theorem dense_ids_witness :
    sessionPatternIds (stateOf (runSession [] [SourceCode.parsed astOnePattern])) =
      (List.range
        (stateOf (runSession [] [SourceCode.parsed astOnePattern])).patterns.length).map
        Int.ofNat ∧
    ruleIdsInWasm
        (stateOf (runSession [] [SourceCode.parsed astOnePattern])).wasm_main =
      (List.range
        (stateOf (runSession [] [SourceCode.parsed astOnePattern])).rules.length).map
        Int.ofNat :=
  dense_ids [] [SourceCode.parsed astOnePattern]
    (stateOf (runSession [] [SourceCode.parsed astOnePattern]))
    (by rfl) (by decide) (by decide)

/-- A rule whose semantic check succeeds always compiles. -/
theorem compileRule_isOk (c : Compiler) (r : Rule) (t : Ty)
    (hs : semcheckTop c.sym_tbl r.condition = Except.ok t) :
    ∃ c', compileRule c r = Except.ok c' := by
  unfold compileRule
  rw [hs]
  exact ⟨_, rfl⟩

/-- `2^31 + 1`. -/
def bigN : Nat := 2147483649

/-- A rule declaring `2^31 + 1` patterns. -/
def bigRule : Rule :=
  { identifier := "r"
    patterns := some (List.replicate bigN { identifier := "$a" })
    condition := Expr.boolLit true }

/-- A source unit holding only `bigRule`. -/
def bigAst : Ast :=
  { namespaces := [{ imports := [], rules := [bigRule] }], warnings := [] }

/-- Counterexample to C7 as stated: a session that registers
`2^31 + 1` patterns compiles successfully, but the assigned
`PatternId` values are not `0, 1, ..., n-1` — the `as i32` cast of
`self.patterns.len()` wraps, so the pattern at index `2^31` receives
the id `-2^31` instead of `2^31`. -/
theorem dense_ids_counterexample :
    compileOutcome (addSourceAst [] Compiler.new bigAst) = true ∧
    sessionPatternIds (stateOf (addSourceAst [] Compiler.new bigAst)) ≠
      (List.range
        (stateOf (addSourceAst [] Compiler.new bigAst)).patterns.length).map
        Int.ofNat := by
  obtain ⟨cB, hcB⟩ := compileRule_isOk Compiler.new bigRule Ty.bool rfl
  have hA : addSourceAst [] Compiler.new bigAst = Except.ok cB := by
    have h0 : addSourceAst [] Compiler.new bigAst =
        compileRules Compiler.new [bigRule] := rfl
    rw [h0]
    unfold compileRules
    rw [hcB]
    rfl
  obtain ⟨hw, ⟨iid, hr⟩, hp, _⟩ := compileRule_ok_parts Compiler.new bigRule cB hcB
  have hstate : stateOf (addSourceAst [] Compiler.new bigAst) = cB := by
    rw [hA]
    rfl
  constructor
  · rw [hA]
    rfl
  · rw [hstate]
    have hsess : sessionPatternIds cB = (List.range' 0 bigN).map i32ofNat := by
      rw [sessionPatternIds, hr]
      simp [mkPairs_snd, bigRule, Compiler.new]
    have hplen : cB.patterns.length = bigN := by
      simp [hp, bigRule, Compiler.new]
    rw [hsess, hplen, ← List.range_eq_range']
    intro heq
    have h1 := congrArg (fun l => l[2147483648]?) heq
    simp only [List.getElem?_map] at h1
    rw [List.getElem?_range (show 2147483648 < bigN by norm_num [bigN])] at h1
    simp only [Option.map_some'] at h1
    have h2 : i32ofNat 2147483648 = Int.ofNat 2147483648 := by
      exact Option.some.inj h1
    have h3 : i32ofNat 2147483648 = -2147483648 := by decide
    rw [h3] at h2
    exact absurd h2 (by decide)
